import Mathlib

/-!
Shallow embedding of the CCCoreLib `GenericDistribution` interface
(`src/include/GenericDistribution.h`) together with definitions modelled
from the design specification for the pure-virtual operations whose
concrete implementations (Gauss, Weibull, ...) are not part of the
provided sources.

Scalar values (`ScalarType`) are modelled by the rational numbers, state
is passed explicitly, and the optional caller-supplied histogram buffer
is modelled by an `Option (List Nat)` threaded through the Chi2 call.
-/

namespace CCCoreLib

variable {α : Type}

/-- `ScalarType` modelled as the rational numbers. -/
abbrev ScalarType : Type := ℚ

/-- Modelled from the spec: `ScalarField` (declared in `ScalarField.h`,
which is not among the provided sources) is a read-only indexed
collection of scalar values exposing `size` and `getValue`. -/
structure ScalarField where
  data : List ScalarType

/-- Number of values held by the scalar field. -/
def ScalarField.size (sf : ScalarField) : Nat := sf.data.length

/-- Value stored at `index` (meaningful only for `index < size`). -/
def ScalarField.getValue (sf : ScalarField) (index : Nat) : ScalarType :=
  sf.data.getD index 0

/-- `GenericDistribution::ScalarContainer`: the scalar values container
interface, exposing `size` and `getValue`. -/
structure ScalarContainer where
  size : Nat
  getValue : Nat → ScalarType

/-- `SFAsScalarContainer`: wrapper of a scalar field as a scalar values
container. It stores only the wrapped (borrowed) field `m_sf`. -/
structure SFAsScalarContainer where
  m_sf : ScalarField

/-- `SFAsScalarContainer::size`: delegates to the wrapped field. -/
def SFAsScalarContainer.size (w : SFAsScalarContainer) : Nat := w.m_sf.size

/-- `SFAsScalarContainer::getValue`: delegates to the wrapped field. -/
def SFAsScalarContainer.getValue (w : SFAsScalarContainer) (index : Nat) : ScalarType :=
  w.m_sf.getValue index

/-- View of the wrapper through the `ScalarContainer` interface. -/
def SFAsScalarContainer.toContainer (w : SFAsScalarContainer) : ScalarContainer :=
  ⟨w.size, w.getValue⟩

/-- `VectorAsScalarContainer`: wrapper of a plain vector of scalars as a
scalar values container. It stores only the wrapped vector `m_vector`. -/
structure VectorAsScalarContainer where
  m_vector : List ScalarType

/-- `VectorAsScalarContainer::size`: delegates to the wrapped vector. -/
def VectorAsScalarContainer.size (w : VectorAsScalarContainer) : Nat :=
  w.m_vector.length

/-- `VectorAsScalarContainer::getValue`: delegates to the wrapped vector
(meaningful only for `index < size`). -/
def VectorAsScalarContainer.getValue (w : VectorAsScalarContainer) (index : Nat) : ScalarType :=
  w.m_vector.getD index 0

/-- View of the wrapper through the `ScalarContainer` interface. -/
def VectorAsScalarContainer.toContainer (w : VectorAsScalarContainer) : ScalarContainer :=
  ⟨w.size, w.getValue⟩

/-- The sample described by a scalar container: the values it yields at
indices `0 .. size - 1`, in order. -/
def ScalarContainer.toList (values : ScalarContainer) : List ScalarType :=
  (List.range values.size).map values.getValue

/-- The mutable state owned by a `GenericDistribution` instance: the
validity flag `m_isValid` of the base class plus the family-specific
parameters, which are owned by the concrete distribution (`none` before
any successful fit). -/
structure DistState (α : Type) where
  m_isValid : Bool
  params : Option α

/-- Default constructor: `GenericDistribution() : m_isValid(false)`. -/
def GenericDistribution.init (α : Type) : DistState α := ⟨false, none⟩

/-- `isValid`: returns the current value of `m_isValid`. -/
def GenericDistribution.isValid (s : DistState α) : Bool := s.m_isValid

/-- `setValid` (protected): sets `m_isValid` to `state`. -/
def GenericDistribution.setValid (s : DistState α) (state : Bool) : DistState α :=
  { s with m_isValid := state }

/-- Modelled from the spec: `computeParameters` is pure virtual and its
concrete implementations are not among the provided sources. Per the
spec, an implementation estimates the family-specific parameters with
its own fitting procedure (here abstracted as `fit`); it must fail on a
size-0 sample, must mark the instance valid and return true on success,
and must mark it invalid and return false on any failure, so that no
stale parameter set survives a failed re-fit. -/
def computeParameters (fit : List ScalarType → Option α) (s : DistState α)
    (values : ScalarContainer) : Bool × DistState α :=
  if values.size = 0 then
    (false, GenericDistribution.setValid s false)
  else
    match fit values.toList with
    | some p => (true, ⟨true, some p⟩)
    | none => (false, GenericDistribution.setValid s false)

/-- Modelled from the spec: a concrete distribution family implementing
the pure-virtual query operations of the contract; `α` is the type of
the family-specific parameters. The two propositional fields record the
obligations the spec places on every implementer: the cumulative
probability from the origin is monotonically non-decreasing, and the
interval cumulative probability `computeP(x1, x2)` (named
`computePBetween` here because Lean has no overloading) agrees with the
difference of cumulatives whenever `x1 <= x2`. -/
structure DistributionImpl (α : Type) where
  getName : String
  fit : List ScalarType → Option α
  computeP : α → ScalarType → ℚ
  computePfromZero : α → ScalarType → ℚ
  computePBetween : α → ScalarType → ScalarType → ℚ
  computePfromZero_mono : ∀ (p : α) (x1 x2 : ScalarType), x1 ≤ x2 →
    computePfromZero p x1 ≤ computePfromZero p x2
  computePBetween_eq : ∀ (p : α) (x1 x2 : ScalarType), x1 ≤ x2 →
    computePBetween p x1 x2 = computePfromZero p x2 - computePfromZero p x1

/-- `computeP(x)` as a query on a distribution state: evaluated with the
currently stored parameters, degrading to 0 when no parameters exist. -/
def computePState (d : DistributionImpl α) (s : DistState α) (x : ScalarType) : ℚ :=
  match s.params with
  | some p => d.computeP p x
  | none => 0

/-- `computePfromZero(x)` as a query on a distribution state. -/
def computePfromZeroState (d : DistributionImpl α) (s : DistState α) (x : ScalarType) : ℚ :=
  match s.params with
  | some p => d.computePfromZero p x
  | none => 0

/-- `computeP(x1, x2)` as a query on a distribution state. -/
def computePBetweenState (d : DistributionImpl α) (s : DistState α)
    (x1 x2 : ScalarType) : ℚ :=
  match s.params with
  | some p => d.computePBetween p x1 x2
  | none => 0

/-- Modelled from the spec: a sample conforming family used to witness
the contract obligations — the uniform distribution on `[0, b]`, fitted
by taking `b` as the maximum of the sample (at least 1, so that the
parameter stays positive), with the empty sample rejected. -/
def uniformImpl : DistributionImpl { b : ℚ // 0 < b } where
  getName := "Uniform"
  fit := fun values =>
    match values with
    | [] => none
    | v :: rest =>
      some ⟨max 1 ((v :: rest).foldr max 0), lt_of_lt_of_le one_pos (le_max_left _ _)⟩
  computeP := fun b x => if 0 ≤ x ∧ x ≤ b.1 then 1 / b.1 else 0
  computePfromZero := fun b x => min 1 (max 0 (x / b.1))
  computePBetween := fun b x1 x2 => min 1 (max 0 (x2 / b.1)) - min 1 (max 0 (x1 / b.1))
  computePfromZero_mono := by
    intro b x1 x2 h
    dsimp only
    have hdiv : x1 / b.1 ≤ x2 / b.1 := by gcongr; exact b.2.le
    exact min_le_min le_rfl (max_le_max le_rfl hdiv)
  computePBetween_eq := by
    intro b x1 x2 h
    rfl

/-- A concrete positive parameter value for the uniform family, used to
instantiate generic statements on concrete inputs. -/
def uniformParamTwo : { b : ℚ // 0 < b } := ⟨2, two_pos⟩

/-- Modelled from the spec: another conforming family (with a plain
rational parameter), whose cumulative is the clamped identity; used to
instantiate generic statements on concrete inputs. -/
def uniformRatImpl : DistributionImpl ℚ where
  getName := "Clamped"
  fit := List.head?
  computeP := fun _ _ => 0
  computePfromZero := fun _ x => min 1 (max 0 x)
  computePBetween := fun _ x1 x2 => min 1 (max 0 x2) - min 1 (max 0 x1)
  computePfromZero_mono := by
    intro p x1 x2 h
    exact min_le_min le_rfl (max_le_max le_rfl h)
  computePBetween_eq := by
    intro p x1 x2 h
    rfl

/-- The operations callable on a distribution instance (the public
interface plus the protected `setValid`). `computeP(x1, x2)` appears as
`computePBetween`. -/
inductive Op (α : Type) where
  | getName : Op α
  | isValidQ : Op α
  | computeP (x : ScalarType) : Op α
  | computePfromZero (x : ScalarType) : Op α
  | computePBetween (x1 x2 : ScalarType) : Op α
  | computeChi2 (pop : List ScalarType) (numberOfClasses : Nat) : Op α
  | computeParams (values : ScalarContainer) : Op α
  | setValid (state : Bool) : Op α

/-- State transition of one operation: `computeParameters` and the
protected `setValid` update the state; every const-qualified query
leaves it untouched, and the spec-modelled Chi2 computation does not
change the distribution state either. -/
def step (fit : List ScalarType → Option α) (s : DistState α) : Op α → DistState α
  | Op.computeParams values => (computeParameters fit s values).2
  | Op.setValid state => GenericDistribution.setValid s state
  | _ => s

/-- Whether an operation is one of the const-qualified query member
functions of the interface. -/
def Op.isConstQuery : Op α → Bool
  | Op.getName => true
  | Op.isValidQ => true
  | Op.computeP _ => true
  | Op.computePfromZero _ => true
  | Op.computePBetween _ _ => true
  | _ => false

/-- The value returned by a query operation, as a function of the
instance state and the query arguments (`none` for non-queries and for
`getName`, whose answer is a constant of the family). -/
def observe (d : DistributionImpl α) (s : DistState α) : Op α → Option ℚ
  | Op.isValidQ => some (if GenericDistribution.isValid s = true then 1 else 0)
  | Op.computeP x => some (computePState d s x)
  | Op.computePfromZero x => some (computePfromZeroState d s x)
  | Op.computePBetween x1 x2 => some (computePBetweenState d s x1 x2)
  | _ => none

/-- Modelled from the spec: the class index a scalar value is binned
into by the Chi2 algorithm. Equal-probability classes are delimited by
the cumulative-probability boundaries `k / numberOfClasses`; the value
`x` falls into the class whose boundaries enclose `cdf x`, and a value
outside all boundaries is assigned to the nearest extreme class. -/
def chi2ClassIndex (cdf : ScalarType → ℚ) (numberOfClasses : Nat) (x : ScalarType) : Nat :=
  min (Int.toNat ⌊cdf x * (numberOfClasses : ℚ)⌋) (numberOfClasses - 1)

/-- Modelled from the spec: the per-class observed counts (in class
order) of a population binned by the Chi2 algorithm. -/
def chi2Histo (cdf : ScalarType → ℚ) (numberOfClasses : Nat)
    (pop : List ScalarType) : List Nat :=
  (List.range numberOfClasses).map
    (fun c => pop.countP (fun x => chi2ClassIndex cdf numberOfClasses x == c))

/-- Modelled from the spec: the Chi2 statistic, the sum over classes of
`(observed - expected)^2 / expected` with the equal-probability expected
count `populationSize / numberOfClasses` (never zero on a valid call, so
no zero-expected-count division arises). -/
def chi2Statistic (cdf : ScalarType → ℚ) (numberOfClasses : Nat)
    (pop : List ScalarType) : ℚ :=
  ((chi2Histo cdf numberOfClasses pop).map
    (fun obs => ((obs : ℚ) - (pop.length : ℚ) / (numberOfClasses : ℚ)) ^ 2
      / ((pop.length : ℚ) / (numberOfClasses : ℚ)))).sum

/-- Modelled from the spec: `computeChi2Dist` is pure virtual and its
concrete implementations are not among the provided sources. Per the
spec it first checks the preconditions (valid distribution, at least one
class, non-empty population) and returns the sentinel -1.0 on failure
without touching the caller-supplied histogram buffer; on success it
returns the Chi2 statistic and, when a buffer was supplied, fills it
with the per-class counts. The population is modelled as the list of the
scalar values of the points of the input cloud, and the optional
caller-owned buffer as an `Option (List Nat)` whose updated contents are
returned alongside the result. -/
def computeChi2Dist (cdf : ScalarType → ℚ) (s : DistState α)
    (pop : List ScalarType) (numberOfClasses : Nat) (histo : Option (List Nat)) :
    ℚ × Option (List Nat) :=
  if GenericDistribution.isValid s = false ∨ numberOfClasses = 0 ∨ pop.length = 0 then
    (-1, histo)
  else
    (chi2Statistic cdf numberOfClasses pop,
      match histo with
      | none => none
      | some _ => some (chi2Histo cdf numberOfClasses pop))

/-! Helper lemmas. -/

/-- The success flag returned by `computeParameters` always coincides
with the validity flag it leaves behind. -/
lemma computeParameters_valid_eq (fit : List ScalarType → Option α)
    (s : DistState α) (values : ScalarContainer) :
    GenericDistribution.isValid (computeParameters fit s values).2 =
      (computeParameters fit s values).1 := by
  unfold computeParameters GenericDistribution.isValid GenericDistribution.setValid
  by_cases h : values.size = 0
  · simp [h]
  · simp only [h, if_false]
    cases fit values.toList <;> simp

/-- Sums of pointwise sums of natural numbers split. -/
lemma list_sum_map_add (l : List Nat) (f g : Nat → Nat) :
    (l.map (fun c => f c + g c)).sum = (l.map f).sum + (l.map g).sum := by
  induction l with
  | nil => simp
  | cons a l ih => simp [ih]; omega

/-- Summing the indicator of one class over all classes gives 1 when
the class index is in range. -/
lemma list_sum_range_indicator (k n : Nat) (hk : k < n) :
    ((List.range n).map (fun c => if k == c then 1 else 0)).sum = 1 := by
  simp only [beq_iff_eq]
  induction n with
  | zero => omega
  | succ n ih =>
    rw [List.range_succ, List.map_append, List.sum_append]
    by_cases h : k = n
    · have hz : ((List.range n).map (fun c => if k = c then 1 else 0)).sum = 0 := by
        apply List.sum_eq_zero
        intro y hy
        simp only [List.mem_map, List.mem_range] at hy
        obtain ⟨c, hc, rfl⟩ := hy
        have hne : k ≠ c := by omega
        simp [hne]
      rw [h] at hz
      simp [hz, h]
    · have hlt : k < n := by omega
      simp [ih hlt, h]

/-- A population whose class indices all lie below `n` contributes
exactly its length to the total of the per-class counts. -/
lemma list_sum_range_countP (f : ScalarType → Nat) (n : Nat) (l : List ScalarType)
    (h : ∀ x ∈ l, f x < n) :
    ((List.range n).map (fun c => l.countP (fun x => f x == c))).sum = l.length := by
  induction l with
  | nil => simp
  | cons a l ih =>
    have ha : f a < n := h a (by simp)
    have hl : ∀ x ∈ l, f x < n := fun x hx => h x (by simp [hx])
    simp only [List.countP_cons]
    rw [list_sum_map_add, ih hl, list_sum_range_indicator (f a) n ha]
    simp

/-- Whenever there is at least one class, every value is binned into a
class index strictly below the number of classes. -/
lemma chi2ClassIndex_lt (cdf : ScalarType → ℚ) (numberOfClasses : Nat)
    (hn : 0 < numberOfClasses) (x : ScalarType) :
    chi2ClassIndex cdf numberOfClasses x < numberOfClasses := by
  unfold chi2ClassIndex
  have := Nat.min_le_right (Int.toNat ⌊cdf x * (numberOfClasses : ℚ)⌋) (numberOfClasses - 1)
  omega

/-- The Chi2 histogram has one entry per class. -/
lemma chi2Histo_length (cdf : ScalarType → ℚ) (numberOfClasses : Nat)
    (pop : List ScalarType) :
    (chi2Histo cdf numberOfClasses pop).length = numberOfClasses := by
  simp [chi2Histo]

/-- With at least one class, the per-class counts add up to the size of
the population: every point is counted exactly once. -/
lemma chi2Histo_sum (cdf : ScalarType → ℚ) (numberOfClasses : Nat)
    (pop : List ScalarType) (hn : 0 < numberOfClasses) :
    (chi2Histo cdf numberOfClasses pop).sum = pop.length :=
  list_sum_range_countP _ numberOfClasses pop
    (fun x _ => chi2ClassIndex_lt cdf numberOfClasses hn x)

/-- The Chi2 statistic of a non-empty population over at least one
class is non-negative. -/
lemma chi2Statistic_nonneg (cdf : ScalarType → ℚ) (numberOfClasses : Nat)
    (pop : List ScalarType) (hn : 0 < numberOfClasses) (hpop : pop ≠ []) :
    0 ≤ chi2Statistic cdf numberOfClasses pop := by
  apply List.sum_nonneg
  intro y hy
  simp only [chi2Statistic, List.mem_map] at hy
  obtain ⟨obs, _, rfl⟩ := hy
  have hexp : (0 : ℚ) < (pop.length : ℚ) / (numberOfClasses : ℚ) := by
    apply div_pos
    · exact_mod_cast List.length_pos.mpr hpop
    · exact_mod_cast hn
  exact div_nonneg (sq_nonneg _) hexp.le

/-! Claim theorems. -/

/-- Claim C1: for every implementation, computeParameters returns true
exactly when it leaves the instance in the valid state, and whenever it
returns false the instance ends up invalid — also when it was valid
before the failed re-fit, so a stale valid parameter set never survives
a failed fit. -/
theorem C1_computeParameters_success_iff_valid (fit : List ScalarType → Option α)
    (s : DistState α) (values : ScalarContainer) :
    ((computeParameters fit s values).1 = true ↔
      GenericDistribution.isValid (computeParameters fit s values).2 = true)
    ∧ ((computeParameters fit s values).1 = false →
      GenericDistribution.isValid (computeParameters fit s values).2 = false) := by
  rw [computeParameters_valid_eq]
  exact ⟨Iff.rfl, fun h => h⟩

/-- Concrete instantiation of the C1 theorem: a failed re-fit (on an
empty container) flips a previously valid instance back to invalid. -/
theorem C1_computeParameters_success_iff_valid_witness :
    (((computeParameters List.head? (⟨true, some (1 : ℚ)⟩ : DistState ℚ)
        (VectorAsScalarContainer.toContainer ⟨[]⟩)).1 = true ↔
      GenericDistribution.isValid (computeParameters List.head?
        (⟨true, some (1 : ℚ)⟩ : DistState ℚ)
        (VectorAsScalarContainer.toContainer ⟨[]⟩)).2 = true)
    ∧ ((computeParameters List.head? (⟨true, some (1 : ℚ)⟩ : DistState ℚ)
        (VectorAsScalarContainer.toContainer ⟨[]⟩)).1 = false →
      GenericDistribution.isValid (computeParameters List.head?
        (⟨true, some (1 : ℚ)⟩ : DistState ℚ)
        (VectorAsScalarContainer.toContainer ⟨[]⟩)).2 = false)) :=
  C1_computeParameters_success_iff_valid List.head? ⟨true, some 1⟩
    (VectorAsScalarContainer.toContainer ⟨[]⟩)

/-- Claim C2: computeChi2Dist returns exactly -1.0 when the number of
classes is 0, the population is empty, or the distribution is invalid,
and on this failure path the caller-supplied histogram buffer is
returned untouched. -/
theorem C2_chi2_failure_returns_sentinel (cdf : ScalarType → ℚ) (s : DistState α)
    (pop : List ScalarType) (numberOfClasses : Nat) (histo : Option (List Nat))
    (h : numberOfClasses = 0 ∨ pop.length = 0 ∨ GenericDistribution.isValid s = false) :
    computeChi2Dist cdf s pop numberOfClasses histo = (-1, histo) := by
  unfold computeChi2Dist
  rcases h with h | h | h <;> simp [h]

/-- Concrete instantiation of the C2 theorem: on an invalid fresh
distribution the sentinel is returned and the buffer is untouched. -/
theorem C2_chi2_failure_returns_sentinel_witness :
    ((2 : Nat) = 0 ∨ ([(1 : ScalarType)]).length = 0 ∨
      GenericDistribution.isValid (GenericDistribution.init ℚ) = false)
    ∧ computeChi2Dist (fun x => x) (GenericDistribution.init ℚ) [1] 2 (some [7, 7])
        = (-1, some [7, 7]) :=
  ⟨Or.inr (Or.inr rfl),
    C2_chi2_failure_returns_sentinel (fun x => x) (GenericDistribution.init ℚ)
      [1] 2 (some [7, 7]) (Or.inr (Or.inr rfl))⟩

/-- Claim C3 as stated is refuted: the protected setValid, invoked with
true, moves a fresh (invalid) instance into the valid state even though
it is not a computeParameters call, so a successful computeParameters is
not the only transition from Invalid to Valid. -/
theorem C3_counterexample_setValid_true :
    ¬ (∀ (s : DistState ℚ) (op : Op ℚ),
        GenericDistribution.isValid s = false →
        GenericDistribution.isValid (step List.head? s op) = true →
        ∃ values, op = Op.computeParams values) := by
  intro hclaim
  obtain ⟨v, hv⟩ :=
    hclaim (GenericDistribution.init ℚ) (Op.setValid true) rfl rfl
  cases hv

/-- Claim C3 (amended): validity only changes through computeParameters
or the protected setValid; Invalid to Valid happens only through a
successful computeParameters or setValid true; Valid to Invalid happens
only through a failed computeParameters or setValid false; no query
operation ever changes the validity state. -/
theorem C3_amended_validity_state_machine (fit : List ScalarType → Option α)
    (s : DistState α) (op : Op α) :
    (GenericDistribution.isValid (step fit s op) ≠ GenericDistribution.isValid s →
      (∃ values, op = Op.computeParams values) ∨ (∃ state, op = Op.setValid state))
    ∧ (GenericDistribution.isValid s = false →
        GenericDistribution.isValid (step fit s op) = true →
        (∃ values, op = Op.computeParams values ∧ (computeParameters fit s values).1 = true)
        ∨ op = Op.setValid true)
    ∧ (GenericDistribution.isValid s = true →
        GenericDistribution.isValid (step fit s op) = false →
        (∃ values, op = Op.computeParams values ∧ (computeParameters fit s values).1 = false)
        ∨ op = Op.setValid false) := by
  cases op
  case computeParams values =>
    have hv := computeParameters_valid_eq fit s values
    refine ⟨fun _ => Or.inl ⟨values, rfl⟩, fun h1 h2 => Or.inl ⟨values, rfl, ?_⟩,
      fun h1 h2 => Or.inl ⟨values, rfl, ?_⟩⟩
    · rw [← hv]
      exact h2
    · rw [← hv]
      exact h2
  case setValid state =>
    cases state
    · refine ⟨fun _ => Or.inr ⟨false, rfl⟩, fun h1 h2 => ?_, fun _ _ => Or.inr rfl⟩
      have h3 : (false : Bool) = true := h2
      exact Bool.noConfusion h3
    · refine ⟨fun _ => Or.inr ⟨true, rfl⟩, fun _ _ => Or.inr rfl, fun h1 h2 => ?_⟩
      have h3 : (true : Bool) = false := h2
      exact Bool.noConfusion h3
  all_goals
    refine ⟨fun h => absurd rfl h, fun h1 h2 => ?_, fun h1 h2 => ?_⟩
  all_goals
    have h3 := h1.symm.trans h2
    exact Bool.noConfusion h3

/-- Concrete instantiation of the amended C3 theorem at the setValid
false operation on a valid instance. -/
theorem C3_amended_validity_state_machine_witness :
    (GenericDistribution.isValid
        (step List.head? (⟨true, some (1 : ℚ)⟩ : DistState ℚ) (Op.setValid false)) ≠
      GenericDistribution.isValid (⟨true, some (1 : ℚ)⟩ : DistState ℚ) →
      (∃ values, Op.setValid (α := ℚ) false = Op.computeParams values)
      ∨ (∃ state, Op.setValid (α := ℚ) false = Op.setValid state))
    ∧ (GenericDistribution.isValid (⟨true, some (1 : ℚ)⟩ : DistState ℚ) = false →
        GenericDistribution.isValid
          (step List.head? (⟨true, some (1 : ℚ)⟩ : DistState ℚ) (Op.setValid false)) = true →
        (∃ values, Op.setValid (α := ℚ) false = Op.computeParams values ∧
          (computeParameters List.head? (⟨true, some (1 : ℚ)⟩ : DistState ℚ) values).1 = true)
        ∨ Op.setValid (α := ℚ) false = Op.setValid true)
    ∧ (GenericDistribution.isValid (⟨true, some (1 : ℚ)⟩ : DistState ℚ) = true →
        GenericDistribution.isValid
          (step List.head? (⟨true, some (1 : ℚ)⟩ : DistState ℚ) (Op.setValid false)) = false →
        (∃ values, Op.setValid (α := ℚ) false = Op.computeParams values ∧
          (computeParameters List.head? (⟨true, some (1 : ℚ)⟩ : DistState ℚ) values).1 = false)
        ∨ Op.setValid (α := ℚ) false = Op.setValid false) :=
  C3_amended_validity_state_machine List.head? ⟨true, some 1⟩ (Op.setValid false)

/-- Claim C4: a freshly constructed distribution instance starts in the
invalid state: right after default construction isValid is false. -/
theorem C4_fresh_instance_invalid (α : Type) :
    GenericDistribution.isValid (GenericDistribution.init α) = false := rfl

/-- Claim C5: for every valid distribution the cumulative probability
from the origin is monotonically non-decreasing in its argument. -/
theorem C5_computePfromZero_monotone (d : DistributionImpl α) (s : DistState α)
    (hvalid : GenericDistribution.isValid s = true) (x1 x2 : ScalarType) (h : x1 ≤ x2) :
    computePfromZeroState d s x1 ≤ computePfromZeroState d s x2 := by
  unfold computePfromZeroState
  cases s.params with
  | none => exact le_refl 0
  | some p => exact d.computePfromZero_mono p x1 x2 h

/-- Concrete instantiation of the C5 theorem on the uniform family. -/
theorem C5_computePfromZero_monotone_witness :
    GenericDistribution.isValid
        (⟨true, some uniformParamTwo⟩ : DistState { b : ℚ // 0 < b }) = true
    ∧ (0 : ScalarType) ≤ 1
    ∧ computePfromZeroState uniformImpl ⟨true, some uniformParamTwo⟩ 0 ≤
        computePfromZeroState uniformImpl ⟨true, some uniformParamTwo⟩ 1 :=
  ⟨rfl, by norm_num,
    C5_computePfromZero_monotone uniformImpl ⟨true, some uniformParamTwo⟩ rfl 0 1
      (by norm_num)⟩

/-- Claim C6: for every valid distribution and x1 <= x2 the interval
cumulative probability equals the difference of the cumulatives from
the origin (exactly, in this rational model, hence in particular within
any numerical tolerance). -/
theorem C6_computePBetween_eq_difference (d : DistributionImpl α) (s : DistState α)
    (hvalid : GenericDistribution.isValid s = true) (x1 x2 : ScalarType) (h : x1 ≤ x2) :
    computePBetweenState d s x1 x2 =
      computePfromZeroState d s x2 - computePfromZeroState d s x1 := by
  unfold computePBetweenState computePfromZeroState
  cases s.params with
  | none => norm_num
  | some p => exact d.computePBetween_eq p x1 x2 h

/-- Concrete instantiation of the C6 theorem on the uniform family. -/
theorem C6_computePBetween_eq_difference_witness :
    GenericDistribution.isValid
        (⟨true, some uniformParamTwo⟩ : DistState { b : ℚ // 0 < b }) = true
    ∧ (0 : ScalarType) ≤ 1
    ∧ computePBetweenState uniformImpl ⟨true, some uniformParamTwo⟩ 0 1 =
        computePfromZeroState uniformImpl ⟨true, some uniformParamTwo⟩ 1 -
          computePfromZeroState uniformImpl ⟨true, some uniformParamTwo⟩ 0 :=
  ⟨rfl, by norm_num,
    C6_computePBetween_eq_difference uniformImpl ⟨true, some uniformParamTwo⟩ rfl 0 1
      (by norm_num)⟩

/-- Claim C7: on a valid call (valid distribution, at least one class,
non-empty population) the Chi2 distance is non-negative, every point is
binned into exactly one class index below the number of classes, and
the histogram written into the supplied buffer has one entry per class
and sums to the size of the population. -/
theorem C7_chi2_valid_call_properties (cdf : ScalarType → ℚ) (s : DistState α)
    (pop : List ScalarType) (numberOfClasses : Nat) (buf : List Nat)
    (hvalid : GenericDistribution.isValid s = true)
    (hn : 0 < numberOfClasses) (hpop : pop ≠ []) :
    0 ≤ (computeChi2Dist cdf s pop numberOfClasses (some buf)).1
    ∧ (∀ x ∈ pop, chi2ClassIndex cdf numberOfClasses x < numberOfClasses)
    ∧ (computeChi2Dist cdf s pop numberOfClasses (some buf)).2 =
        some (chi2Histo cdf numberOfClasses pop)
    ∧ (chi2Histo cdf numberOfClasses pop).length = numberOfClasses
    ∧ (chi2Histo cdf numberOfClasses pop).sum = pop.length := by
  have hcond : ¬(GenericDistribution.isValid s = false ∨ numberOfClasses = 0 ∨
      pop.length = 0) := by
    push_neg
    refine ⟨by simp [hvalid], by omega, ?_⟩
    have := List.length_pos.mpr hpop
    omega
  refine ⟨?_, fun x _ => chi2ClassIndex_lt cdf numberOfClasses hn x, ?_,
    chi2Histo_length cdf numberOfClasses pop, chi2Histo_sum cdf numberOfClasses pop hn⟩
  · unfold computeChi2Dist
    rw [if_neg hcond]
    exact chi2Statistic_nonneg cdf numberOfClasses pop hn hpop
  · unfold computeChi2Dist
    rw [if_neg hcond]

/-- Concrete instantiation of the C7 theorem: one point, two classes. -/
theorem C7_chi2_valid_call_properties_witness :
    GenericDistribution.isValid (⟨true, some (1 : ℚ)⟩ : DistState ℚ) = true
    ∧ (0 : Nat) < 2
    ∧ ([(1 : ScalarType) / 2] ≠ [])
    ∧ (0 ≤ (computeChi2Dist (fun x => x) (⟨true, some (1 : ℚ)⟩ : DistState ℚ)
          [1 / 2] 2 (some [0, 0])).1
      ∧ (∀ x ∈ [(1 : ScalarType) / 2], chi2ClassIndex (fun x => x) 2 x < 2)
      ∧ (computeChi2Dist (fun x => x) (⟨true, some (1 : ℚ)⟩ : DistState ℚ)
          [1 / 2] 2 (some [0, 0])).2 = some (chi2Histo (fun x => x) 2 [1 / 2])
      ∧ (chi2Histo (fun x => x) 2 [1 / 2]).length = 2
      ∧ (chi2Histo (fun x => x) 2 [1 / 2]).sum = ([(1 : ScalarType) / 2]).length) :=
  ⟨rfl, by norm_num, by simp,
    C7_chi2_valid_call_properties (fun x => x) ⟨true, some 1⟩ [1 / 2] 2 [0, 0]
      rfl (by norm_num) (by simp)⟩

/-- Claim C8: computeParameters applied to an empty scalar value source
returns false and leaves the distribution invalid. -/
theorem C8_computeParameters_empty_fails (fit : List ScalarType → Option α)
    (s : DistState α) (values : ScalarContainer) (h : values.size = 0) :
    (computeParameters fit s values).1 = false
    ∧ GenericDistribution.isValid (computeParameters fit s values).2 = false := by
  unfold computeParameters
  simp [h, GenericDistribution.isValid, GenericDistribution.setValid]

/-- Concrete instantiation of the C8 theorem on the empty vector
wrapper, starting from a previously valid state. -/
theorem C8_computeParameters_empty_fails_witness :
    (VectorAsScalarContainer.toContainer ⟨[]⟩).size = 0
    ∧ ((computeParameters List.head? (⟨true, some (1 : ℚ)⟩ : DistState ℚ)
        (VectorAsScalarContainer.toContainer ⟨[]⟩)).1 = false
      ∧ GenericDistribution.isValid (computeParameters List.head?
          (⟨true, some (1 : ℚ)⟩ : DistState ℚ)
          (VectorAsScalarContainer.toContainer ⟨[]⟩)).2 = false) :=
  ⟨rfl, C8_computeParameters_empty_fails List.head? ⟨true, some 1⟩
    (VectorAsScalarContainer.toContainer ⟨[]⟩) rfl⟩

/-- Claim C9: both scalar-container adapters are pure delegating views:
their size equals the size of the wrapped storage and, for every index
in range, their getValue returns exactly the wrapped element. -/
theorem C9_container_adapters_delegate (sf : ScalarField) (v : List ScalarType)
    (i j : Nat) (hi : i < (SFAsScalarContainer.mk sf).size)
    (hj : j < (VectorAsScalarContainer.mk v).size) :
    (SFAsScalarContainer.mk sf).size = sf.size
    ∧ (SFAsScalarContainer.mk sf).getValue i = sf.getValue i
    ∧ (VectorAsScalarContainer.mk v).size = v.length
    ∧ (VectorAsScalarContainer.mk v).getValue j = v.get ⟨j, hj⟩ := by
  refine ⟨rfl, rfl, rfl, ?_⟩
  show v.getD j 0 = v.get ⟨j, hj⟩
  rw [List.getD_eq_getElem v 0 hj]
  rfl

/-- Concrete instantiation of the C9 theorem. -/
theorem C9_container_adapters_delegate_witness :
    (1 : Nat) < (SFAsScalarContainer.mk ⟨[3, 5]⟩).size
    ∧ (0 : Nat) < (VectorAsScalarContainer.mk [9]).size
    ∧ ((SFAsScalarContainer.mk ⟨[3, 5]⟩).size = (⟨[3, 5]⟩ : ScalarField).size
      ∧ (SFAsScalarContainer.mk ⟨[3, 5]⟩).getValue 1 = (⟨[3, 5]⟩ : ScalarField).getValue 1
      ∧ (VectorAsScalarContainer.mk [9]).size = ([(9 : ScalarType)]).length
      ∧ (VectorAsScalarContainer.mk [9]).getValue 0 =
          ([(9 : ScalarType)]).get ⟨0, by norm_num⟩) :=
  ⟨by decide, by decide,
    C9_container_adapters_delegate ⟨[3, 5]⟩ [9] 1 0 (by decide) (by decide)⟩

/-- Claim C10: every const query (getName, isValid, computeP,
computePfromZero, computeP on an interval) leaves the instance state
unchanged, repeating a query on the unchanged state yields the same
observation, and any operation that does change the state is
computeParameters or the protected setValid. -/
theorem C10_const_queries_preserve_state (fit : List ScalarType → Option α)
    (d : DistributionImpl α) (s : DistState α) (op : Op α) :
    (Op.isConstQuery op = true → step fit s op = s)
    ∧ (Op.isConstQuery op = true → observe d (step fit s op) = observe d s)
    ∧ (step fit s op ≠ s →
        (∃ values, op = Op.computeParams values) ∨ (∃ state, op = Op.setValid state)) := by
  cases op
  case computeParams values =>
    exact ⟨fun h => Bool.noConfusion h, fun h => Bool.noConfusion h,
      fun _ => Or.inl ⟨values, rfl⟩⟩
  case setValid state =>
    exact ⟨fun h => Bool.noConfusion h, fun h => Bool.noConfusion h,
      fun _ => Or.inr ⟨state, rfl⟩⟩
  all_goals
    exact ⟨fun _ => rfl, fun _ => rfl, fun h => absurd rfl h⟩

/-- Concrete instantiation of the C10 theorem at the isValid query. -/
theorem C10_const_queries_preserve_state_witness :
    (Op.isConstQuery (Op.isValidQ (α := ℚ)) = true →
      step List.head? (⟨true, some (1 : ℚ)⟩ : DistState ℚ) Op.isValidQ =
        (⟨true, some (1 : ℚ)⟩ : DistState ℚ))
    ∧ (Op.isConstQuery (Op.isValidQ (α := ℚ)) = true →
      observe uniformRatImpl
          (step List.head? (⟨true, some (1 : ℚ)⟩ : DistState ℚ) Op.isValidQ) =
        observe uniformRatImpl (⟨true, some (1 : ℚ)⟩ : DistState ℚ))
    ∧ (step List.head? (⟨true, some (1 : ℚ)⟩ : DistState ℚ) Op.isValidQ ≠
        (⟨true, some (1 : ℚ)⟩ : DistState ℚ) →
      (∃ values, Op.isValidQ (α := ℚ) = Op.computeParams values)
      ∨ (∃ state, Op.isValidQ (α := ℚ) = Op.setValid state)) :=
  C10_const_queries_preserve_state List.head? uniformRatImpl ⟨true, some 1⟩ Op.isValidQ

end CCCoreLib
